import Mathlib

/-!
Shallow embedding of the kindlr clippings parser (`src/parser.rs`).

The parser turns the raw text of a Kindle "My Clippings" export into
structured records.  The embedding below mirrors the Rust source
function by function:

* the regex searches of the field extractors are modelled as explicit
  leftmost scans (`scanFor`) with per-position matchers that realise the
  concrete patterns of the source (`(Bookmark|Highlight|Note)`,
  `page (\d+)`, `Location (\d+)-(\d+)`, `Location (\d+)`,
  `Added on (Monday|...|Sunday)` and the datetime pattern), following
  the regex crate's leftmost-first semantics;
* `Clipping.from_text` mirrors `Clipping::from_text`, with the
  non-blank-line iterator modelled as the filtered line list;
* `parse_clippings` mirrors the fail-fast batch parser.

Machine integers: the source parses the captured digit runs with
`str::parse::<u32>`, whose only failure mode on an all-digit capture is
overflow above `u32::MAX`, which the source turns into a panic via
`.unwrap()`.  The digit captures are modelled as `Nat`; no claim in this
development involves an overflowing capture.
-/

namespace Kindlr

set_option maxRecDepth 100000

/-- `enum ParseError` of `parser.rs`. -/
inductive ParseError where
  | InvalidFormat (msg : String)
  | MissingField (field : String)
  | InvalidWeekday (day : String)
deriving DecidableEq, Repr

/-- `impl fmt::Display for ParseError`. -/
def ParseError.render : ParseError → String
  | .InvalidFormat msg => "Invalid format: " ++ msg
  | .MissingField field => "Missing field: " ++ field
  | .InvalidWeekday day => "Invalid weekday: " ++ day

/-- `enum ClippingType`. -/
inductive ClippingType where
  | Highlight
  | Note
  | Bookmark
deriving DecidableEq, Repr

/-- `struct Location`. -/
structure Location where
  start : Nat
  «end» : Option Nat
deriving DecidableEq, Repr

/-- `enum Weekday`. -/
inductive Weekday where
  | Monday
  | Tuesday
  | Wednesday
  | Thursday
  | Friday
  | Saturday
  | Sunday
deriving DecidableEq, Repr

/-- `struct Clipping`. -/
structure Clipping where
  clipping_type : ClippingType
  book_title : String
  author : String
  page : Option Nat
  location : Location
  datetime : String
  weekday : Weekday
  content : Option String
deriving DecidableEq, Repr

/-- The character class of the regex escape `\s` (and of Rust
`char::is_whitespace`), restricted to its ASCII part; all inputs of this
development are ASCII. -/
def wsChar (c : Char) : Bool :=
  c == ' ' || c == '\t' || c == '\n' || c == '\x0b' || c == '\x0c' || c == '\r'

/-- Rust `str::trim` on the character list of a string. -/
def trimChars (cs : List Char) : List Char :=
  ((cs.dropWhile wsChar).reverse.dropWhile wsChar).reverse

/-- Decimal value of an all-digit capture, as parsed by `str::parse`. -/
def natOfDigits (ds : List Char) : Nat :=
  ds.foldl (fun n c => n * 10 + (c.toNat - '0'.toNat)) 0

/-- Match a literal character sequence at the current position and
return the remainder of the input. -/
def stripLit : List Char → List Char → Option (List Char)
  | [], cs => some cs
  | _ :: _, [] => none
  | p :: ps, c :: cs => if c = p then stripLit ps cs else none

/-- Unanchored regex search: try the per-position matcher at every start
position from left to right; the leftmost success wins (the regex
crate's leftmost-first semantics). -/
def scanFor {α : Type} (f : List Char → Option α) : List Char → Option α
  | [] => f []
  | c :: cs =>
    match f (c :: cs) with
    | some a => some a
    | none => scanFor f cs

/-- One attempt of the pattern `(Bookmark|Highlight|Note)` at a fixed
start position, alternatives in the source's order.  The capture is fed
to `ClippingType::from_str` in the source, which accepts exactly these
three keywords, so the parsed variant is returned directly. -/
def matchKindAt (cs : List Char) : Option ClippingType :=
  if ("Bookmark".data).isPrefixOf cs then some .Bookmark
  else if ("Highlight".data).isPrefixOf cs then some .Highlight
  else if ("Note".data).isPrefixOf cs then some .Note
  else none

/-- `Clipping::parse_type`. -/
def Clipping.parse_type (line : String) : Except ParseError ClippingType :=
  match scanFor matchKindAt line.data with
  | some k => .ok k
  | none => .error (.InvalidFormat ("Failed to parse clipping type: " ++ line))

/-- One attempt of the pattern `page (\d+)` at a fixed start position;
the capture is the maximal digit run after the literal. -/
def matchPageAt (cs : List Char) : Option Nat :=
  match stripLit ("page ".data) cs with
  | none => none
  | some rest =>
    let ds := rest.takeWhile Char.isDigit
    if ds.isEmpty then none else some (natOfDigits ds)

/-- `Clipping::parse_page`.  Note that the source returns
`Err(InvalidFormat(..))` when no pattern matches; no code path produces
`Ok(None)` even though the declared result type is
`Result<Option<u32>, ParseError>`. -/
def Clipping.parse_page (line : String) : Except ParseError (Option Nat) :=
  match scanFor matchPageAt line.data with
  | some p => .ok (some p)
  | none => .error (.InvalidFormat ("Failed to parse page: " ++ line))

/-- One attempt of the pattern `Location (\d+)-(\d+)` at a fixed start
position. -/
def matchLoc2At (cs : List Char) : Option (Nat × Nat) :=
  match stripLit ("Location ".data) cs with
  | none => none
  | some rest =>
    let ds1 := rest.takeWhile Char.isDigit
    if ds1.isEmpty then none
    else
      match rest.dropWhile Char.isDigit with
      | [] => none
      | c :: rest2 =>
        if c = '-' then
          let ds2 := rest2.takeWhile Char.isDigit
          if ds2.isEmpty then none else some (natOfDigits ds1, natOfDigits ds2)
        else none

/-- One attempt of the pattern `Location (\d+)` at a fixed start
position. -/
def matchLoc1At (cs : List Char) : Option Nat :=
  match stripLit ("Location ".data) cs with
  | none => none
  | some rest =>
    let ds := rest.takeWhile Char.isDigit
    if ds.isEmpty then none else some (natOfDigits ds)

/-- `Clipping::parse_location`: the two-capture range pattern is tried
over the whole line before the one-capture point pattern; failure of
both is `InvalidFormat`. -/
def Clipping.parse_location (line : String) : Except ParseError Location :=
  match scanFor matchLoc2At line.data with
  | some (s, e) => .ok ⟨s, some e⟩
  | none =>
    match scanFor matchLoc1At line.data with
    | some s => .ok ⟨s, none⟩
    | none => .error (.InvalidFormat ("Failed to parse location: " ++ line))

/-- Ordered alternation: first alternative whose literal matches at the
current position wins. -/
def matchAltAt {α : Type} : List (String × α) → List Char → Option (α × List Char)
  | [], _ => none
  | (w, v) :: rest, cs =>
    match stripLit w.data cs with
    | some r => some (v, r)
    | none => matchAltAt rest cs

/-- The weekday alternation of the pattern
`Added on (Monday|Tuesday|Wednesday|Thursday|Friday|Saturday|Sunday)`,
in the source's order; the capture is fed to `Weekday::from_str`, which
accepts exactly these names. -/
def weekdayAlts : List (String × Weekday) :=
  [("Monday", .Monday), ("Tuesday", .Tuesday), ("Wednesday", .Wednesday),
   ("Thursday", .Thursday), ("Friday", .Friday), ("Saturday", .Saturday),
   ("Sunday", .Sunday)]

/-- One attempt of the weekday pattern at a fixed start position. -/
def matchWeekdayAt (cs : List Char) : Option Weekday :=
  match stripLit ("Added on ".data) cs with
  | none => none
  | some rest =>
    match matchAltAt weekdayAlts rest with
    | some (w, _) => some w
    | none => none

/-- `Clipping::parse_weekday`. -/
def Clipping.parse_weekday (line : String) : Except ParseError Weekday :=
  match scanFor matchWeekdayAt line.data with
  | some w => .ok w
  | none => .error (.InvalidFormat ("Failed to parse weekday: " ++ line))

/-- The month-name alternation of the datetime pattern, in the source's
order. -/
def monthAlts : List (String × String) :=
  [("January", "January"), ("February", "February"), ("March", "March"),
   ("April", "April"), ("May", "May"), ("June", "June"), ("July", "July"),
   ("August", "August"), ("September", "September"), ("October", "October"),
   ("November", "November"), ("December", "December")]

/-- Match exactly `k` digit characters. -/
def takeExactDigits : Nat → List Char → Option (List Char × List Char)
  | 0, cs => some ([], cs)
  | _ + 1, [] => none
  | k + 1, c :: cs =>
    if c.isDigit then
      match takeExactDigits k cs with
      | some (ds, r) => some (c :: ds, r)
      | none => none
    else none

/-- Match `\s+`: at least one whitespace character, greedily.  Every
atom following `\s+` in the datetime pattern starts with a non-whitespace
character, so the maximal run is the only viable choice and no
backtracking into the run is needed. -/
def takeWs1 (cs : List Char) : Option (List Char × List Char) :=
  let ws := cs.takeWhile wsChar
  if ws.isEmpty then none else some (ws, cs.dropWhile wsChar)

/-- Match one literal character. -/
def expectChar (c : Char) : List Char → Option (List Char)
  | d :: cs => if d = c then some cs else none
  | [] => none

/-- Match `\d{k}:\d{2}:\d{2}` with `k` hour digits. -/
def matchHMSwith (k : Nat) (cs : List Char) : Option (List Char × List Char) :=
  match takeExactDigits k cs with
  | none => none
  | some (h, r1) =>
    match expectChar ':' r1 with
    | none => none
    | some r2 =>
      match takeExactDigits 2 r2 with
      | none => none
      | some (mi, r3) =>
        match expectChar ':' r3 with
        | none => none
        | some r4 =>
          match takeExactDigits 2 r4 with
          | none => none
          | some (se, r5) => some (h ++ ':' :: mi ++ ':' :: se, r5)

/-- Match `\d{1,2}:\d{2}:\d{2}`: the greedy `{1,2}` tries two hour
digits before one. -/
def matchHMS (cs : List Char) : Option (List Char × List Char) :=
  match matchHMSwith 2 cs with
  | some r => some r
  | none => matchHMSwith 1 cs

/-- One attempt of the datetime pattern with exactly `k` day digits:
`\d{k}\s+(?:January|...|December)\s+\d{4}\s+\d{1,2}:\d{2}:\d{2}`.
Returns the full capture. -/
def matchDTwithDay (k : Nat) (cs : List Char) : Option (List Char) :=
  match takeExactDigits k cs with
  | none => none
  | some (d, r1) =>
    match takeWs1 r1 with
    | none => none
    | some (w1, r2) =>
      match matchAltAt monthAlts r2 with
      | none => none
      | some (m, r3) =>
        match takeWs1 r3 with
        | none => none
        | some (w2, r4) =>
          match takeExactDigits 4 r4 with
          | none => none
          | some (y, r5) =>
            match takeWs1 r5 with
            | none => none
            | some (w3, r6) =>
              match matchHMS r6 with
              | none => none
              | some (hms, _) => some (d ++ w1 ++ m.data ++ w2 ++ y ++ w3 ++ hms)

/-- One attempt of the full datetime pattern at a fixed start position:
the greedy `\d{1,2}` day field tries two digits before one. -/
def matchDatetimeAt (cs : List Char) : Option (List Char) :=
  match matchDTwithDay 2 cs with
  | some r => some r
  | none => matchDTwithDay 1 cs

/-- `Clipping::parse_datetime`: the capture is kept verbatim as a
string. -/
def Clipping.parse_datetime (line : String) : Except ParseError String :=
  match scanFor matchDatetimeAt line.data with
  | some dt => .ok ⟨dt⟩
  | none => .error (.InvalidFormat ("Failed to parse datetime: " ++ line))

/-- The tail `\s+\((.+)\)$` of the title/author pattern, attempted after
a candidate title prefix: at least one whitespace character, then `(`,
then the greedy author capture, then `)` as the last character of the
line.  The whitespace run is forced maximal because `(` is not
whitespace, and the author capture is forced to end at the final `)`
because of the `$` anchor.  `.` does not match a newline. -/
def matchAuthorTail (cs : List Char) : Option (List Char) :=
  match cs.head? with
  | none => none
  | some c =>
    if wsChar c then
      match cs.dropWhile wsChar with
      | c' :: rest =>
        if c' = '(' then
          if rest.getLast? == some ')' && !rest.dropLast.isEmpty &&
              rest.dropLast.all (fun x => x != '\n') then
            some rest.dropLast
          else none
        else none
      | [] => none
    else none

/-- The anchored pattern `^(.+?)\s+\((.+)\)$`: the lazy `(.+?)` grows
the title capture one character at a time, attempting the tail after
each extension; the first success wins. -/
def splitTA : List Char → List Char → Option (List Char × List Char)
  | _, [] => none
  | acc, c :: cs =>
    if c = '\n' then none
    else
      match matchAuthorTail cs with
      | some a => some (acc ++ [c], a)
      | none => splitTA (acc ++ [c]) cs

/-- `Clipping::parse_title_and_author`: both captures are trimmed. -/
def Clipping.parse_title_and_author (line : String) :
    Except ParseError (String × String) :=
  match splitTA [] line.data with
  | some (t, a) => .ok (⟨trimChars t⟩, ⟨trimChars a⟩)
  | none =>
    .error (.InvalidFormat ("Expected 'Title (Author)' format, got: " ++ line))

/-- Rust `str::lines`: split at `\n` terminators, strip a `\r` that
immediately precedes a `\n`, and do not produce a final empty line for a
trailing terminator. -/
def rustLinesGo (acc : List Char) : List Char → List (List Char)
  | [] => if acc.isEmpty then [] else [acc.reverse]
  | c :: cs =>
    if c = '\n' then
      (if acc.head? = some '\r' then acc.reverse.dropLast else acc.reverse) ::
        rustLinesGo [] cs
    else rustLinesGo (c :: acc) cs

/-- The line list of `text.lines()`. -/
def rustLines (s : String) : List String :=
  (rustLinesGo [] s.data).map (fun l => ⟨l⟩)

/-- The non-blank-line iterator
`text.lines().filter(|line| !line.trim().is_empty())`, materialised as a
list. -/
def filteredLines (text : String) : List String :=
  (rustLines text).filter (fun l => !(trimChars l.data).isEmpty)

/-- The body of `Clipping::from_text` over the non-blank line list:
line 1 is title/author, line 2 is the metadata line fed to the five
field extractors in the source's order, and line 3 is the verbatim body
unless the kind is `Bookmark`. -/
def fromLines : List String → Except ParseError Clipping
  | [] => .error (.MissingField "book title and author")
  | first :: rest =>
    match Clipping.parse_title_and_author first with
    | .error e => .error e
    | .ok (book_title, author) =>
      match rest with
      | [] => .error (.MissingField "metadata")
      | second :: rest2 =>
        match Clipping.parse_type second with
        | .error e => .error e
        | .ok clipping_type =>
          match Clipping.parse_page second with
          | .error e => .error e
          | .ok page =>
            match Clipping.parse_location second with
            | .error e => .error e
            | .ok location =>
              match Clipping.parse_weekday second with
              | .error e => .error e
              | .ok weekday =>
                match Clipping.parse_datetime second with
                | .error e => .error e
                | .ok datetime =>
                  if clipping_type = ClippingType.Bookmark then
                    .ok ⟨clipping_type, book_title, author, page, location,
                         datetime, weekday, none⟩
                  else
                    match rest2 with
                    | [] => .error (.MissingField "content")
                    | c :: _ =>
                      .ok ⟨clipping_type, book_title, author, page, location,
                           datetime, weekday, some c⟩

/-- `Clipping::from_text`. -/
def Clipping.from_text (text : String) : Except ParseError Clipping :=
  fromLines (filteredLines text)

/-- `const SEPARATOR: &str = "=========="`. -/
def SEPARATOR : String := "=========="

/-- Rust `str::split` on a non-empty literal separator, leftmost
non-overlapping occurrences.  The `fuel` argument only bounds the
recursion; it is initialised to the input length, which at least one
consumed character per step never exhausts. -/
def splitOnSepGo (sep : List Char) : Nat → List Char → List Char → List (List Char)
  | _, acc, [] => [acc.reverse]
  | 0, acc, rest => [acc.reverse ++ rest]
  | fuel + 1, acc, c :: cs =>
    if sep.isPrefixOf (c :: cs) then
      acc.reverse :: splitOnSepGo sep fuel [] (List.drop (sep.length - 1) cs)
    else
      splitOnSepGo sep fuel (c :: acc) cs

/-- `contents.split(SEPARATOR)` as a list of pieces. -/
def splitOnSep (sep : List Char) (cs : List Char) : List (List Char) :=
  splitOnSepGo sep cs.length [] cs

/-- The raw pieces of `contents.split(SEPARATOR)`, as strings. -/
def rawBlocks (contents : String) : List String :=
  (splitOnSep SEPARATOR.data contents.data).map (fun b => ⟨b⟩)

/-- The segmentation stage of `parse_clippings`:
`contents.split(SEPARATOR).filter(|text| !text.trim().is_empty())`. -/
def segmentBlocks (contents : String) : List String :=
  (rawBlocks contents).filter (fun t => !(trimChars t.data).isEmpty)

/-- The `enumerate().map(..).collect()` stage of `parse_clippings`:
fail-fast collection, wrapping the first builder failure with the
1-based index over non-empty blocks. -/
def collectFrom : Nat → List String → Except ParseError (List Clipping)
  | _, [] => .ok []
  | index, t :: ts =>
    match Clipping.from_text t with
    | .error e =>
      .error (.InvalidFormat
        ("Failed to parse clipping #" ++ toString (index + 1) ++ ": " ++
          e.render))
    | .ok c =>
      match collectFrom (index + 1) ts with
      | .error e => .error e
      | .ok cs => .ok (c :: cs)

/-- `parse_clippings`. -/
def parse_clippings (contents : String) : Except ParseError (List Clipping) :=
  collectFrom 0 (segmentBlocks contents)

/-! ## Concrete inputs used across the development -/

/-- The single-entry highlight block of the spec's Highlight scenario
(also the block of the repository's `test_clipping_parsing_en`). -/
def hlText : String :=
  "Book Title (Author Name)\n- Your Highlight on page 123 | Location 1234-1235 | Added on Monday, 26 August 2025 12:57:30\n\nHighlighted text."

/-- The record the Highlight scenario expects. -/
def hlRecord : Clipping :=
  { clipping_type := .Highlight
    book_title := "Book Title"
    author := "Author Name"
    page := some 123
    location := { start := 1234, «end» := some 1235 }
    datetime := "26 August 2025 12:57:30"
    weekday := .Monday
    content := some "Highlighted text." }

/-! ## Theorems -/

/-- Claim C4: the single-entry highlight block of the spec's Highlight
scenario builds successfully into exactly the record
`{kind: Highlight, title: "Book Title", author: "Author Name",
page: 123, location: {1234, 1235}, weekday: Monday,
timestamp: "26 August 2025 12:57:30", body: "Highlighted text."}`. -/
theorem c4_highlight_scenario : Clipping.from_text hlText = .ok hlRecord := by
  rfl

/-- Claim C1 (code behavior at the failing input): on a metadata line
with no `page <N>` token the page extractor does not succeed with
`page = none`; it fails with `InvalidFormat`, and the failure aborts the
whole record build.  This contradicts the claim and the declared intent
of the source (`Result<Option<u32>, _>` result type, `Option<u32>`
record field, `"N/A"` display path), see the C1 entry of the results. -/
theorem c1_missing_page_code_behavior :
    Clipping.parse_page
        "- Your Bookmark | Location 1234 | Added on Monday, 26 August 2025 12:57:30" =
      .error (.InvalidFormat
        "Failed to parse page: - Your Bookmark | Location 1234 | Added on Monday, 26 August 2025 12:57:30") ∧
    Clipping.from_text
        "Book Title (Author Name)\n- Your Bookmark | Location 1234 | Added on Monday, 26 August 2025 12:57:30\n" =
      .error (.InvalidFormat
        "Failed to parse page: - Your Bookmark | Location 1234 | Added on Monday, 26 August 2025 12:57:30") := by
  exact ⟨rfl, rfl⟩

/-- Any successful `fromLines` result satisfies the body/kind
invariant: the record builder sets `content := none` exactly in the
`Bookmark` branch and `content := some _` in the other branch. -/
theorem fromLines_content_iff (ls : List String) (c : Clipping)
    (h : fromLines ls = .ok c) :
    (c.content = none ↔ c.clipping_type = ClippingType.Bookmark) := by
  match ls with
  | [] => simp [fromLines] at h
  | [l1] =>
    simp only [fromLines] at h
    split at h <;> simp_all
  | l1 :: l2 :: rest =>
    simp only [fromLines] at h
    repeat' split at h
    all_goals simp_all
    all_goals (subst h; simp_all)

/-- Claim C2: for every record produced by a successful build, the body
is absent if and only if the entry kind is `Bookmark`. -/
theorem c2_body_iff_bookmark (text : String) (c : Clipping)
    (h : Clipping.from_text text = .ok c) :
    (c.content = none ↔ c.clipping_type = ClippingType.Bookmark) :=
  fromLines_content_iff (filteredLines text) c h

/-- Witness for C2 at the Highlight scenario block. -/
theorem c2_body_iff_bookmark_witness :
    hlRecord.content = none ↔ hlRecord.clipping_type = ClippingType.Bookmark :=
  c2_body_iff_bookmark hlText hlRecord (by rfl)

/-- Every error of the fail-fast collector is an `InvalidFormat`
wrapping a 1-based index and the rendered underlying cause. -/
theorem collectFrom_error_shape (bs : List String) :
    ∀ (i : Nat) (e : ParseError), collectFrom i bs = .error e →
      ∃ (n : Nat) (cause : ParseError), e = ParseError.InvalidFormat
        ("Failed to parse clipping #" ++ toString n ++ ": " ++
          ParseError.render cause) := by
  induction bs with
  | nil => intro i e h; simp [collectFrom] at h
  | cons b bs ih =>
    intro i e h
    simp only [collectFrom] at h
    split at h
    next e0 _ =>
      injection h with h'
      exact ⟨i + 1, e0, h'.symm⟩
    next c _ =>
      split at h
      next e1 heq2 =>
        injection h with h'
        exact ih (i + 1) e (h' ▸ heq2)
      next cs _ => simp at h

/-- Claim C9: every error value returned by `parse_clippings` is the
`InvalidFormat` variant, wrapping the 1-based entry index and the
rendered cause; in particular `MissingField` never escapes the batch
boundary. -/
theorem c9_batch_errors_invalid_format (contents : String) (e : ParseError)
    (h : parse_clippings contents = .error e) :
    ∃ (n : Nat) (cause : ParseError), e = ParseError.InvalidFormat
      ("Failed to parse clipping #" ++ toString n ++ ": " ++
        ParseError.render cause) :=
  collectFrom_error_shape (segmentBlocks contents) 0 e h

/-- Witness for C9 at a one-block input whose build fails. -/
theorem c9_batch_errors_invalid_format_witness :
    ∃ (n : Nat) (cause : ParseError), ParseError.InvalidFormat
        "Failed to parse clipping #1: Invalid format: Expected 'Title (Author)' format, got: Garbage" =
      ParseError.InvalidFormat
        ("Failed to parse clipping #" ++ toString n ++ ": " ++
          ParseError.render cause) :=
  c9_batch_errors_invalid_format "Garbage"
    (ParseError.InvalidFormat
      "Failed to parse clipping #1: Invalid format: Expected 'Title (Author)' format, got: Garbage")
    (by rfl)

/-- Claim C3: the batch parse is fail-fast.  When segmentation yields a
well-formed first block and a malformed second block, the result is a
single `ParseError` wrapping the second block's cause with the 1-based
index 2, and no records are returned. -/
theorem c3_fail_fast (contents b1 b2 : String) (c : Clipping) (e : ParseError)
    (hseg : segmentBlocks contents = [b1, b2])
    (h1 : Clipping.from_text b1 = .ok c)
    (h2 : Clipping.from_text b2 = .error e) :
    parse_clippings contents =
      .error (.InvalidFormat ("Failed to parse clipping #2: " ++ e.render)) := by
  unfold parse_clippings
  rw [hseg]
  simp only [collectFrom, h1, h2]
  rfl

/-- Witness for C3: a valid highlight entry followed by a malformed
one. -/
theorem c3_fail_fast_witness :
    parse_clippings (hlText ++ "\n==========\nGarbage") =
      .error (.InvalidFormat
        "Failed to parse clipping #2: Invalid format: Expected 'Title (Author)' format, got: Garbage") :=
  c3_fail_fast (hlText ++ "\n==========\nGarbage")
    "Book Title (Author Name)\n- Your Highlight on page 123 | Location 1234-1235 | Added on Monday, 26 August 2025 12:57:30\n\nHighlighted text.\n"
    "\nGarbage" hlRecord
    (ParseError.InvalidFormat "Expected 'Title (Author)' format, got: Garbage")
    (by rfl) (by rfl) (by rfl)

/-- Claim C8: segmentation splits on the ten-`=` delimiter, drops
blank blocks without consuming an index (a failing non-blank block
preceded by a dropped blank block is reported as clipping #1), and an
input with zero non-empty blocks parses to the empty sequence. -/
theorem c8_segmentation :
    (∀ contents : String, segmentBlocks contents = [] →
        parse_clippings contents = .ok []) ∧
    (∀ (contents x y : String) (e : ParseError),
        rawBlocks contents = [x, y] →
        (trimChars x.data).isEmpty = true →
        (trimChars y.data).isEmpty = false →
        Clipping.from_text y = .error e →
        parse_clippings contents =
          .error (.InvalidFormat
            ("Failed to parse clipping #1: " ++ e.render))) := by
  constructor
  · intro contents h
    unfold parse_clippings
    rw [h]
    rfl
  · intro contents x y e hraw hx hy hyerr
    unfold parse_clippings segmentBlocks
    rw [hraw]
    simp only [List.filter, hx, hy, Bool.not_true, Bool.not_false]
    simp only [collectFrom, hyerr]
    rfl

/-- Witness for C8: the empty file, and a file whose first raw block is
blank and whose second is malformed. -/
theorem c8_segmentation_witness :
    parse_clippings "" = .ok [] ∧
    parse_clippings "   ==========Garbage here" =
      .error (.InvalidFormat
        "Failed to parse clipping #1: Invalid format: Expected 'Title (Author)' format, got: Garbage here") :=
  ⟨c8_segmentation.1 "" (by rfl),
   c8_segmentation.2 "   ==========Garbage here" "   " "Garbage here"
     (ParseError.InvalidFormat
       "Expected 'Title (Author)' format, got: Garbage here")
     (by rfl) (by rfl) (by rfl) (by rfl)⟩

/-- Claim C7: on a block whose non-blank lines are exactly the two
header lines, a `Note`/`Highlight` build fails with
`MissingField("content")` while a `Bookmark` build succeeds with
`body = none`. -/
theorem c7_missing_content (text l1 l2 : String) (ta : String × String)
    (k : ClippingType) (p : Option Nat) (loc : Location) (w : Weekday)
    (d : String)
    (hfl : filteredLines text = [l1, l2])
    (hta : Clipping.parse_title_and_author l1 = .ok ta)
    (hk : Clipping.parse_type l2 = .ok k)
    (hp : Clipping.parse_page l2 = .ok p)
    (hloc : Clipping.parse_location l2 = .ok loc)
    (hw : Clipping.parse_weekday l2 = .ok w)
    (hd : Clipping.parse_datetime l2 = .ok d) :
    (k ≠ ClippingType.Bookmark →
      Clipping.from_text text = .error (.MissingField "content")) ∧
    (k = ClippingType.Bookmark →
      Clipping.from_text text = .ok ⟨k, ta.1, ta.2, p, loc, d, w, none⟩) := by
  obtain ⟨bt, au⟩ := ta
  unfold Clipping.from_text
  rw [hfl]
  constructor <;> intro hb <;>
    simp [fromLines, hta, hk, hp, hloc, hw, hd, hb]

/-- Witness for C7: a bodyless Note block fails with
`MissingField("content")`; a bodyless Bookmark block succeeds with
`body = none`. -/
theorem c7_missing_content_witness :
    Clipping.from_text
        "Book Title (Author Name)\n- Your Note on page 123 | Location 1234 | Added on Monday, 26 August 2025 12:57:30" =
      .error (.MissingField "content") ∧
    Clipping.from_text
        "Book Title (Author Name)\n- Your Bookmark on page 123 | Location 1234 | Added on Monday, 26 August 2025 12:57:30\n\n" =
      .ok ⟨.Bookmark, "Book Title", "Author Name", some 123, ⟨1234, none⟩,
           "26 August 2025 12:57:30", .Monday, none⟩ :=
  ⟨(c7_missing_content
      "Book Title (Author Name)\n- Your Note on page 123 | Location 1234 | Added on Monday, 26 August 2025 12:57:30"
      "Book Title (Author Name)"
      "- Your Note on page 123 | Location 1234 | Added on Monday, 26 August 2025 12:57:30"
      ("Book Title", "Author Name") .Note (some 123) ⟨1234, none⟩ .Monday
      "26 August 2025 12:57:30"
      (by rfl) (by rfl) (by rfl) (by rfl) (by rfl) (by rfl) (by rfl)).1
    (by decide),
   (c7_missing_content
      "Book Title (Author Name)\n- Your Bookmark on page 123 | Location 1234 | Added on Monday, 26 August 2025 12:57:30\n\n"
      "Book Title (Author Name)"
      "- Your Bookmark on page 123 | Location 1234 | Added on Monday, 26 August 2025 12:57:30"
      ("Book Title", "Author Name") .Bookmark (some 123) ⟨1234, none⟩ .Monday
      "26 August 2025 12:57:30"
      (by rfl) (by rfl) (by rfl) (by rfl) (by rfl) (by rfl) (by rfl)).2
    rfl⟩

/-- Claim C10: lines beyond those the build consumes are ignored.  The
build result does not depend on the lines after the third non-blank
line; a successful non-Bookmark build's body is exactly the third
non-blank line; and for a Bookmark entry the result does not depend on
any line after the metadata line. -/
theorem c10_extra_lines_ignored (l1 l2 l3 : String) (rest rest' : List String) :
    (fromLines (l1 :: l2 :: l3 :: rest) = fromLines (l1 :: l2 :: l3 :: rest')) ∧
    (∀ c : Clipping, fromLines (l1 :: l2 :: l3 :: rest) = .ok c →
      c.clipping_type ≠ ClippingType.Bookmark → c.content = some l3) ∧
    (Clipping.parse_type l2 = .ok ClippingType.Bookmark →
      fromLines (l1 :: l2 :: rest) = fromLines (l1 :: l2 :: rest')) := by
  refine ⟨?_, ?_, ?_⟩
  · simp only [fromLines]
  · intro c h hk
    simp only [fromLines] at h
    repeat' split at h
    all_goals simp_all
    all_goals (subst h; simp_all)
  · intro hb
    simp only [fromLines, hb]
    cases Clipping.parse_title_and_author l1 <;>
    cases Clipping.parse_page l2 <;>
    cases Clipping.parse_location l2 <;>
    cases Clipping.parse_weekday l2 <;>
    cases Clipping.parse_datetime l2 <;>
    rfl

/-- Witness for C10: an extra fourth line does not change the highlight
build; the body is the third line; an extra line after a bookmark's
metadata does not change the bookmark build. -/
theorem c10_extra_lines_ignored_witness :
    (fromLines
        ["Book Title (Author Name)",
         "- Your Highlight on page 123 | Location 1234-1235 | Added on Monday, 26 August 2025 12:57:30",
         "Highlighted text.", "Extra line"] =
      fromLines
        ["Book Title (Author Name)",
         "- Your Highlight on page 123 | Location 1234-1235 | Added on Monday, 26 August 2025 12:57:30",
         "Highlighted text."]) ∧
    hlRecord.content = some "Highlighted text." ∧
    (fromLines
        ["Book Title (Author Name)",
         "- Your Bookmark on page 123 | Location 1234 | Added on Monday, 26 August 2025 12:57:30",
         "Extra line"] =
      fromLines
        ["Book Title (Author Name)",
         "- Your Bookmark on page 123 | Location 1234 | Added on Monday, 26 August 2025 12:57:30"]) :=
  ⟨(c10_extra_lines_ignored "Book Title (Author Name)"
      "- Your Highlight on page 123 | Location 1234-1235 | Added on Monday, 26 August 2025 12:57:30"
      "Highlighted text." ["Extra line"] []).1,
   (c10_extra_lines_ignored "Book Title (Author Name)"
      "- Your Highlight on page 123 | Location 1234-1235 | Added on Monday, 26 August 2025 12:57:30"
      "Highlighted text." ["Extra line"] []).2.1 hlRecord (by rfl) (by decide),
   (c10_extra_lines_ignored "Book Title (Author Name)"
      "- Your Bookmark on page 123 | Location 1234 | Added on Monday, 26 August 2025 12:57:30"
      "Highlighted text." ["Extra line"] []).2.2 (by rfl)⟩

/-- A successful literal match decomposes the input. -/
theorem stripLit_eq : ∀ (p cs r : List Char), stripLit p cs = some r → cs = p ++ r := by
  intro p
  induction p with
  | nil =>
    intro cs r h
    simp only [stripLit, Option.some.injEq] at h
    simp [h]
  | cons a ps ih =>
    intro cs r h
    cases cs with
    | nil => simp [stripLit] at h
    | cons c cs' =>
      simp only [stripLit] at h
      split at h
      · next hc =>
        subst hc
        simp [ih cs' r h]
      · simp at h

/-- A successful leftmost scan decomposes the input into a skipped
prefix and a suffix on which the per-position matcher succeeds. -/
theorem scanFor_eq_some {α : Type} (f : List Char → Option α) :
    ∀ (cs : List Char) (a : α), scanFor f cs = some a →
      ∃ pre suf, cs = pre ++ suf ∧ f suf = some a := by
  intro cs
  induction cs with
  | nil =>
    intro a h
    exact ⟨[], [], rfl, by simpa [scanFor] using h⟩
  | cons c cs ih =>
    intro a h
    simp only [scanFor] at h
    cases hf : f (c :: cs) with
    | some b =>
      rw [hf] at h
      injection h with h'
      exact ⟨[], c :: cs, rfl, h' ▸ hf⟩
    | none =>
      rw [hf] at h
      obtain ⟨pre, suf, hsplit, hsuf⟩ := ih a h
      exact ⟨c :: pre, suf, by simp [hsplit], hsuf⟩

/-- A successful range-pattern attempt decomposes its position into the
literal `Location `, a non-empty digit run, a `-`, a second non-empty
digit run and a remainder, with the captures' decimal values as the
result. -/
theorem matchLoc2At_decomp (cs : List Char) (s e : Nat)
    (h : matchLoc2At cs = some (s, e)) :
    ∃ ds1 ds2 post,
      cs = ("Location ".data) ++ (ds1 ++ ('-' :: (ds2 ++ post))) ∧
      ds1 ≠ [] ∧ ds2 ≠ [] ∧
      ds1.all Char.isDigit = true ∧ ds2.all Char.isDigit = true ∧
      natOfDigits ds1 = s ∧ natOfDigits ds2 = e := by
  unfold matchLoc2At at h
  cases hstrip : stripLit ("Location ".data) cs with
  | none => rw [hstrip] at h; simp at h
  | some rest =>
    rw [hstrip] at h
    simp only at h
    split at h
    · simp at h
    · next h1 =>
      cases hdrop : rest.dropWhile Char.isDigit with
      | nil => rw [hdrop] at h; simp at h
      | cons c rest2 =>
        rw [hdrop] at h
        simp only at h
        split at h
        · next hc =>
          subst hc
          split at h
          · simp at h
          · next h2 =>
            injection h with h'
            obtain ⟨hs, he⟩ := Prod.mk.injEq .. ▸ h'
            refine ⟨rest.takeWhile Char.isDigit, rest2.takeWhile Char.isDigit,
              rest2.dropWhile Char.isDigit, ?_, ?_, ?_, ?_, ?_, ?_, ?_⟩
            · rw [stripLit_eq _ _ _ hstrip]
              have hrest : rest.takeWhile Char.isDigit ++
                  rest.dropWhile Char.isDigit = rest :=
                List.takeWhile_append_dropWhile ..
              have hrest2 : rest2.takeWhile Char.isDigit ++
                  rest2.dropWhile Char.isDigit = rest2 :=
                List.takeWhile_append_dropWhile ..
              congr 1
              conv_lhs => rw [← hrest, hdrop, ← hrest2]
            · simpa [List.isEmpty_iff] using h1
            · simpa [List.isEmpty_iff] using h2
            · exact List.all_takeWhile
            · exact List.all_takeWhile
            · exact hs
            · exact he
        · simp at h

/-- Claim C6: `Location.end` is present only when the metadata line
contains an explicit `Location <start>-<end>` token (first conjunct:
a successful range result exhibits the token in the line); when the
range pattern matches nowhere, any successful parse has `end = none`
(second conjunct); and when neither pattern matches anywhere the
extractor fails with `InvalidFormat` — location is mandatory (third
conjunct). -/
theorem c6_location_invariant :
    (∀ (line : String) (s e : Nat),
        Clipping.parse_location line = .ok ⟨s, some e⟩ →
        ∃ pre ds1 ds2 post,
          line.data = pre ++ (("Location ".data) ++ (ds1 ++ ('-' :: (ds2 ++ post)))) ∧
          ds1 ≠ [] ∧ ds2 ≠ [] ∧
          ds1.all Char.isDigit = true ∧ ds2.all Char.isDigit = true ∧
          natOfDigits ds1 = s ∧ natOfDigits ds2 = e) ∧
    (∀ (line : String) (loc : Location),
        scanFor matchLoc2At line.data = none →
        Clipping.parse_location line = .ok loc → loc.«end» = none) ∧
    (∀ line : String,
        scanFor matchLoc2At line.data = none →
        scanFor matchLoc1At line.data = none →
        Clipping.parse_location line =
          .error (.InvalidFormat ("Failed to parse location: " ++ line))) := by
  refine ⟨?_, ?_, ?_⟩
  · intro line s e h
    unfold Clipping.parse_location at h
    cases hscan : scanFor matchLoc2At line.data with
    | some p =>
      obtain ⟨s', e'⟩ := p
      rw [hscan] at h
      injection h with h'
      obtain ⟨hs, he⟩ := Location.mk.injEq .. ▸ h'
      obtain ⟨pre, suf, hsplit, hsuf⟩ := scanFor_eq_some matchLoc2At line.data (s', e') hscan
      obtain ⟨ds1, ds2, post, hdec, h1, h2, ha1, ha2, hn1, hn2⟩ :=
        matchLoc2At_decomp suf s' e' hsuf
      refine ⟨pre, ds1, ds2, post, ?_, h1, h2, ha1, ha2, hs ▸ hn1, ?_⟩
      · rw [hsplit, hdec]
      · rw [hn2]
        exact Option.some.inj he
    | none =>
      rw [hscan] at h
      simp only at h
      split at h
      · injection h with h'
        exact absurd (congrArg Location.end h').symm (by simp)
      · simp at h
  · intro line loc h2 hok
    unfold Clipping.parse_location at hok
    rw [h2] at hok
    simp only at hok
    split at hok
    · injection hok with h'
      rw [← h']
    · simp at hok
  · intro line h2 h1
    unfold Clipping.parse_location
    rw [h2, h1]

/-- Witness for C6, at the lines `"Location 12-34"`, `"Location 12"`
and `"xyz"`. -/
theorem c6_location_invariant_witness :
    (∃ pre ds1 ds2 post,
        "Location 12-34".data =
          pre ++ (("Location ".data) ++ (ds1 ++ ('-' :: (ds2 ++ post)))) ∧
        ds1 ≠ [] ∧ ds2 ≠ [] ∧
        ds1.all Char.isDigit = true ∧ ds2.all Char.isDigit = true ∧
        natOfDigits ds1 = 12 ∧ natOfDigits ds2 = 34) ∧
    (Location.mk 12 none).«end» = none ∧
    Clipping.parse_location "xyz" =
      .error (.InvalidFormat "Failed to parse location: xyz") :=
  ⟨c6_location_invariant.1 "Location 12-34" 12 34 (by rfl),
   c6_location_invariant.2.1 "Location 12" ⟨12, none⟩ (by rfl) (by rfl),
   c6_location_invariant.2.2 "xyz" (by rfl) (by rfl)⟩

/-- If a Boolean predicate holds at the head, a counterexample in a cons
list lies in the tail. -/
theorem exists_not_of_cons {p : Char → Bool} {c : Char} {cs : List Char}
    (hc : p c = true) (h : ∃ x ∈ c :: cs, p x = false) :
    ∃ x ∈ cs, p x = false := by
  obtain ⟨x, hx, hpx⟩ := h
  rcases List.mem_cons.mp hx with rfl | hx'
  · rw [hc] at hpx
    exact absurd hpx (by simp)
  · exact ⟨x, hx', hpx⟩

/-- `dropWhile` over an append stops inside the left part when the left
part contains an element falsifying the predicate. -/
theorem dropWhile_append_ex (p : Char → Bool) :
    ∀ (l r : List Char), (∃ x ∈ l, p x = false) →
      List.dropWhile p (l ++ r) = List.dropWhile p l ++ r := by
  intro l
  induction l with
  | nil => intro r h; simp at h
  | cons c cs ih =>
    intro r h
    by_cases hc : p c = true
    · simp only [List.cons_append, List.dropWhile_cons, if_pos hc]
      exact ih r (exists_not_of_cons hc h)
    · simp only [List.cons_append, List.dropWhile_cons, if_neg hc]

/-- When a list contains an element falsifying the predicate,
`dropWhile` produces a cons whose head falsifies the predicate and lies
in the list. -/
theorem dropWhile_head_ex (p : Char → Bool) :
    ∀ (l : List Char), (∃ x ∈ l, p x = false) →
      ∃ d ds, List.dropWhile p l = d :: ds ∧ p d = false ∧ d ∈ l := by
  intro l
  induction l with
  | nil => intro h; simp at h
  | cons c cs ih =>
    intro h
    by_cases hc : p c = true
    · obtain ⟨d, ds, hdw, hpd, hmem⟩ := ih (exists_not_of_cons hc h)
      exact ⟨d, ds, by simp [List.dropWhile_cons, hc, hdw], hpd,
        List.mem_cons_of_mem _ hmem⟩
    · exact ⟨c, cs, by simp [List.dropWhile_cons, hc], by simpa using hc,
        List.mem_cons_self ..⟩

/-- The `\s+\((.+)\)$` tail succeeds on a single space, `(`, a non-empty
newline-free author and a final `)`, capturing exactly the author. -/
theorem matchAuthorTail_sep (a : List Char) (ha : a ≠ [])
    (hanl : ∀ c ∈ a, c ≠ '\n') :
    matchAuthorTail (' ' :: '(' :: (a ++ [')'])) = some a := by
  have hdw : List.dropWhile wsChar (' ' :: '(' :: (a ++ [')'])) =
      '(' :: (a ++ [')']) := by
    rw [List.dropWhile_cons, if_pos (by decide), List.dropWhile_cons,
      if_neg (by decide)]
  have hall : a.all (fun x => x != '\n') = true := by
    rw [List.all_eq_true]
    intro x hx
    simpa [bne_iff_ne] using hanl x hx
  have hemp : a.isEmpty = false := List.isEmpty_eq_false.mpr ha
  simp [matchAuthorTail, hdw, wsChar, List.getLast?_concat,
    List.dropLast_concat, hall, hemp]

/-- The `\s+\((.+)\)$` tail fails at a position whose remaining title
part contains no `(` and at least one non-whitespace character: the
whitespace run (if any) stops at a character of the title part, which
cannot be the required `(`. -/
theorem matchAuthorTail_append_none (u v : List Char)
    (hpar : ∀ c ∈ u, c ≠ '(')
    (hws : ∃ x ∈ u, wsChar x = false) :
    matchAuthorTail (u ++ v) = none := by
  match u with
  | [] => simp at hws
  | c2 :: t2 =>
    by_cases hc2 : wsChar c2 = true
    · obtain ⟨d, ds, hdw, hpd, hmem⟩ := dropWhile_head_ex wsChar (c2 :: t2) hws
      have hdw' : List.dropWhile wsChar ((c2 :: t2) ++ v) = d :: (ds ++ v) := by
        rw [dropWhile_append_ex wsChar (c2 :: t2) v hws, hdw]
        simp
      simp only [matchAuthorTail, List.cons_append, List.head?_cons] at hdw' ⊢
      rw [if_pos hc2, hdw']
      simp only
      rw [if_neg (hpar d hmem)]
    · simp only [matchAuthorTail, List.cons_append, List.head?_cons]
      rw [if_neg hc2]

/-- One unfolding step of the lazy title scan. -/
theorem splitTA_cons (acc : List Char) (c : Char) (cs : List Char) :
    splitTA acc (c :: cs) =
      if c = '\n' then none
      else
        match matchAuthorTail cs with
        | some a => some (acc ++ [c], a)
        | none => splitTA (acc ++ [c]) cs := rfl

/-- On a line of the shape `<title> (<author>)` — title non-empty,
free of `(` and newlines, not ending in whitespace; author non-empty
and newline-free but otherwise arbitrary, parentheses included — the
lazy scan stops exactly at the separating `" ("` and captures the whole
author up to the final `)`. -/
theorem splitTA_complete (a : List Char) (ha : a ≠ [])
    (hanl : ∀ c ∈ a, c ≠ '\n') :
    ∀ (t : List Char), t ≠ [] →
      (∀ c ∈ t, c ≠ '(' ∧ c ≠ '\n') →
      t.getLast?.all (fun c => !wsChar c) = true →
      ∀ acc, splitTA acc (t ++ ' ' :: '(' :: (a ++ [')'])) = some (acc ++ t, a) := by
  intro t
  induction t with
  | nil => intro h; exact absurd rfl h
  | cons c t' ih =>
    intro _ hchars hlast acc
    have hcnl : c ≠ '\n' := (hchars c (by simp)).2
    cases t' with
    | nil =>
      simp only [List.cons_append, List.nil_append]
      rw [splitTA_cons, if_neg hcnl, matchAuthorTail_sep a ha hanl]
    | cons c2 t2 =>
      have hne2 : (c2 :: t2 : List Char) ≠ [] := by simp
      have hlast' : (c2 :: t2).getLast?.all (fun c => !wsChar c) = true := by
        rw [← List.getLast?_cons_cons]
        exact hlast
      have hex : ∃ x ∈ c2 :: t2, wsChar x = false := by
        refine ⟨(c2 :: t2).getLast hne2, List.getLast_mem hne2, ?_⟩
        rw [List.getLast?_eq_getLast _ hne2] at hlast'
        simpa [Option.all] using hlast'
      have htail : matchAuthorTail ((c2 :: t2) ++ (' ' :: '(' :: (a ++ [')']))) = none :=
        matchAuthorTail_append_none _ _
          (fun x hx => (hchars x (List.mem_cons_of_mem _ hx)).1) hex
      have hrec := ih hne2
        (fun x hx => hchars x (List.mem_cons_of_mem _ hx)) hlast' (acc ++ [c])
      simp only [List.cons_append] at htail hrec ⊢
      rw [splitTA_cons, if_neg hcnl, htail]
      exact hrec.trans (by simp)

/-- Claim C5: on a title line `<title> (<author>)` the extractor matches
the title lazily and the author greedily anchored at the end of the
line, so an author field containing parentheses (or any other
characters) is captured in full up to the final `)` rather than
truncated at the first `)`. -/
theorem c5_author_not_truncated (t a : List Char) (ht : t ≠ []) (ha : a ≠ [])
    (htc : ∀ c ∈ t, c ≠ '(' ∧ c ≠ '\n')
    (hlast : t.getLast?.all (fun c => !wsChar c) = true)
    (hac : ∀ c ∈ a, c ≠ '\n') :
    Clipping.parse_title_and_author ⟨t ++ ' ' :: '(' :: (a ++ [')'])⟩ =
      .ok (⟨trimChars t⟩, ⟨trimChars a⟩) := by
  unfold Clipping.parse_title_and_author
  have h := splitTA_complete a ha hac t ht htc hlast []
  rw [show (⟨t ++ ' ' :: '(' :: (a ++ [')'])⟩ : String).data =
      t ++ ' ' :: '(' :: (a ++ [')']) from rfl, h]
  simp

/-- Witness for C5 at the spec's embedded-parentheses scenario: the
author `Author (Translator)` is captured in full. -/
theorem c5_author_not_truncated_witness :
    Clipping.parse_title_and_author
        ⟨"Title".data ++ ' ' :: '(' :: ("Author (Translator)".data ++ [')'])⟩ =
      .ok (⟨trimChars "Title".data⟩, ⟨trimChars "Author (Translator)".data⟩) ∧
    Clipping.parse_title_and_author "Title (Author (Translator))" =
      .ok ("Title", "Author (Translator)") :=
  ⟨c5_author_not_truncated "Title".data "Author (Translator)".data
      (by decide) (by decide) (by decide) (by decide) (by decide),
   by rfl⟩

end Kindlr
